import Mathlib

/-!
# Formal model of the pong game loop (src/main.rs)

Shallow embedding of the per-frame gameplay systems of the two-player pong
game: paddle movement (`move_paddle`), collision-driven event detection
(`detect_reset`, `ball_hit`), ball reset (`reset_ball`) and score
accumulation (`score`).  Positions, velocities and frame times are modelled
as rationals; the `i32` score counter is modelled as a mathematical integer
normalised with two's-complement wrap-around at 32 bits (`wrap32`), which is
the behaviour of `+=` on `i32` when overflow checks are disabled.
-/

namespace Pong

/-- Field width constant `WINDOW_WIDTH: f32 = 1280.` (src/main.rs line 10). -/
def WINDOW_WIDTH : ℚ := 1280

/-- Field height constant `WINDOW_HIGHT: f32 = 720.` (src/main.rs line 11). -/
def WINDOW_HIGHT : ℚ := 720

/-- Ball radius constant `BALL_RADIUS: f32 = 25.` (src/main.rs line 12). -/
def BALL_RADIUS : ℚ := 25

/-- The `Player` component (src/main.rs lines 60-64). -/
inductive Player
  | Player1
  | Player2
deriving DecidableEq

/-- The sprite colors that occur in the program: the css palette colors
`RED`, `GREEN`, `DARK_GRAY` and `Color::WHITE`. -/
inductive Color
  | red
  | green
  | white
  | darkGray
deriving DecidableEq

/-- `Player::start_speed` (src/main.rs lines 67-72): the preset serve
velocity, `(100, 0)` for Player1 and `(-100, 0)` for Player2. -/
def Player.start_speed : Player → ℚ × ℚ
  | .Player1 => (100, 0)
  | .Player2 => (-100, 0)

/-- `Player::get_color` (src/main.rs lines 74-79). -/
def Player.get_color : Player → Color
  | .Player1 => .red
  | .Player2 => .green

/-- The player on the other side of the field. -/
def Player.opposite : Player → Player
  | .Player1 => .Player2
  | .Player2 => .Player1

/-! ## Spawned scene data -/

/-- A goal sensor as spawned by `spawn_border`: its x translation and the
`Player` component attached to it. -/
structure GoalSensor where
  x : ℚ
  tag : Player
deriving DecidableEq

/-- The two goal sensors spawned by `spawn_border` (src/main.rs lines
100-120): at `x = WINDOW_WIDTH / 2` tagged `Player1`, and at
`x = -WINDOW_WIDTH / 2` tagged `Player2`. -/
def spawn_border_sensors : List GoalSensor :=
  [⟨WINDOW_WIDTH / 2, .Player1⟩, ⟨-WINDOW_WIDTH / 2, .Player2⟩]

/-- A paddle as spawned by `spawn_players`: its x translation and the owning
`Player` component. -/
structure PaddleSpawn where
  x : ℚ
  owner : Player
deriving DecidableEq

/-- The two paddles spawned by `spawn_players` (src/main.rs lines 123-161):
Player1 at `x = -WINDOW_WIDTH / 2 + 20`, Player2 at
`x = WINDOW_WIDTH / 2 - 20`. -/
def spawn_players_paddles : List PaddleSpawn :=
  [⟨-WINDOW_WIDTH / 2 + 20, .Player1⟩, ⟨WINDOW_WIDTH / 2 - 20, .Player2⟩]

/-! ## Paddle movement -/

/-- Rust `f32::clamp(lo, hi)` on rationals: if below the lower bound return
the lower bound, if above the upper bound return the upper bound, otherwise
the value itself (requires `lo ≤ hi`, which holds for the paddle bounds used
below). -/
def clampQ (x lo hi : ℚ) : ℚ := if x < lo then lo else if hi < x then hi else x

/-- One frame of `move_paddle` for a single paddle (src/main.rs lines
163-185): if the up key is held, add `100 * dt` and clamp the y translation
to `[-WINDOW_HIGHT/2 + 75, WINDOW_HIGHT/2 - 75]`; then, if the down key is
held, subtract `100 * dt` and clamp again. -/
def move_paddle (up down : Bool) (dt y : ℚ) : ℚ :=
  let y1 := if up then clampQ (y + 100 * dt) (-WINDOW_HIGHT / 2 + 75) (WINDOW_HIGHT / 2 - 75)
            else y
  if down then clampQ (y1 - 100 * dt) (-WINDOW_HIGHT / 2 + 75) (WINDOW_HIGHT / 2 - 75)
  else y1

/-! ## Collision entities and event detection -/

/-- An entity as it can appear in the ball's `CollidingEntities` set: a
paddle (carrying `Paddle` and `Player`), a goal sensor (carrying `Sensor`
and `Player`), or a plain wall collider (top/bottom border, no `Player`). -/
inductive OverlapEntity
  | paddleOf (p : Player)
  | goalOf (p : Player)
  | wall
deriving DecidableEq

/-- The query `paddles: Query<&Player, With<Paddle>>` applied to one entity:
`paddles.get(hit)` succeeds exactly on paddle entities. -/
def paddleOwner : OverlapEntity → Option Player
  | .paddleOf p => some p
  | _ => none

/-- The query `goals: Query<&Player, With<Sensor>>` applied to one entity:
`goals.get(hit)` succeeds exactly on goal-sensor entities. -/
def goalOwner : OverlapEntity → Option Player
  | .goalOf p => some p
  | _ => none

/-- `ball_hit` (src/main.rs lines 215-227) for the single ball: scan the
ball's overlap set; on the first hit that is a paddle, set the sprite color
to that player's color and return; otherwise leave the color unchanged. -/
def ball_hit (hits : List OverlapEntity) (sprite : Color) : Color :=
  match hits with
  | [] => sprite
  | h :: rest =>
    match paddleOwner h with
    | some p => p.get_color
    | none => ball_hit rest sprite

/-- The `GameEvents` event type (src/main.rs lines 254-258). -/
inductive GameEvents
  | ResetBall (p : Player)
  | GainPoint (p : Player)
deriving DecidableEq

/-- The goal-scan loop of `detect_reset` (src/main.rs lines 244-251): for
each hit in the ball's overlap set that is a goal sensor tagged `p`, send
`ResetBall(p)` followed by `GainPoint(p)`. -/
def goalEvents : List OverlapEntity → List GameEvents
  | [] => []
  | h :: rest =>
    match goalOwner h with
    | some p => .ResetBall p :: .GainPoint p :: goalEvents rest
    | none => goalEvents rest

/-- `detect_reset` (src/main.rs lines 229-252) for the single ball.
`spaceJustPressed` models `input.just_pressed(KeyCode::Space)` and
`randBool` models `rand::thread_rng().gen::<bool>()` (true picks Player1).
On a space press a single manual `ResetBall` event is sent and the function
returns; otherwise the overlap set is scanned for goal sensors. -/
def detect_reset (spaceJustPressed randBool : Bool)
    (hits : List OverlapEntity) : List GameEvents :=
  if spaceJustPressed then
    [.ResetBall (if randBool then .Player1 else .Player2)]
  else
    goalEvents hits

/-! ## Ball reset -/

/-- The ball's transform translation and linear velocity. -/
structure BallState where
  translation : ℚ × ℚ × ℚ
  velocity : ℚ × ℚ
deriving DecidableEq

/-- Effect of one event on the ball in `reset_ball` (src/main.rs lines
260-275): a `ResetBall(p)` event teleports the ball to `Vec3::ZERO` and sets
its velocity to `p.start_speed()`; any other event is ignored. -/
def reset_ball_event (e : GameEvents) (b : BallState) : BallState :=
  match e with
  | .ResetBall p => ⟨(0, 0, 0), p.start_speed⟩
  | .GainPoint _ => b

/-- `reset_ball`: drain the frame's event queue in order, applying
`reset_ball_event` to each event. -/
def reset_ball (events : List GameEvents) (b : BallState) : BallState :=
  events.foldl (fun s e => reset_ball_event e s) b

/-! ## Score -/

/-- Two's-complement wrap-around of an integer at 32 bits: the value an
`i32` holds after unchecked arithmetic. -/
def wrap32 (z : ℤ) : ℤ := (z + 2147483648) % 4294967296 - 2147483648

/-- The `Score` resource (src/main.rs lines 354-355): a
`HashMap<Player, i32>`, absent keys meaning the player has not scored. -/
abbrev Score : Type := Player → Option ℤ

/-- The initial score map: `Score::default()` is the empty hash map. -/
def Score.empty : Score := fun _ => none

/-- One on-screen score text entity: the value of its first text section and
the `Player` component it is tagged with. -/
structure ScoreText where
  value : String
  owner : Player
deriving DecidableEq

/-- The text-update loop inside `score` (src/main.rs lines 367-373): scan
the text entities in order, skip those whose owner is not `p`, write the
rendered score into the first match and break. -/
def updateText (p : Player) (s : ℤ) : List ScoreText → List ScoreText
  | [] => []
  | t :: rest =>
    if t.owner = p then { t with value := toString s } :: rest
    else t :: updateText p s rest

/-- Effect of one event in the `score` system (src/main.rs lines 357-378).
On `GainPoint(p)`: `*score.0.entry(*player).or_default() += 1` inserts 0
for an absent key and then wrap-increments; then the new value is read back
(`get(player).cloned().unwrap_or(0)`) and written into the first text
entity tagged `p`.  A `ResetBall` event does nothing. -/
def score_event (e : GameEvents) (texts : List ScoreText) (m : Score) :
    List ScoreText × Score :=
  match e with
  | .GainPoint p =>
    let m2 : Score := fun q => if q = p then some (wrap32 ((m p).getD 0 + 1)) else m q
    let s := (m2 p).getD 0
    (updateText p s texts, m2)
  | .ResetBall _ => (texts, m)

/-- The `score` system: drain the frame's event queue in order. -/
def score (events : List GameEvents) (texts : List ScoreText) (m : Score) :
    List ScoreText × Score :=
  match events with
  | [] => (texts, m)
  | e :: rest =>
    let r := score_event e texts m
    score rest r.1 r.2

/-- Number of `GainPoint p` events in an event list. -/
def countGain (p : Player) : List GameEvents → ℕ
  | [] => 0
  | .GainPoint q :: rest => (if q = p then 1 else 0) + countGain p rest
  | .ResetBall _ :: rest => countGain p rest

/-! ## Helper lemmas -/

/-- A clamped value lies between the two bounds whenever they are ordered. -/
lemma clampQ_bounds (x lo hi : ℚ) (h : lo ≤ hi) :
    lo ≤ clampQ x lo hi ∧ clampQ x lo hi ≤ hi := by
  unfold clampQ
  split_ifs with h1 h2 <;> constructor <;> linarith

/-- The paddle bounds are ordered. -/
lemma paddle_lo_le_hi : (-WINDOW_HIGHT / 2 + 75 : ℚ) ≤ WINDOW_HIGHT / 2 - 75 := by
  norm_num [WINDOW_HIGHT]

/-- 32-bit wrap-around is idempotent. -/
lemma wrap32_idem (x : ℤ) : wrap32 (wrap32 x) = wrap32 x := by
  unfold wrap32
  omega

/-- Adding after wrapping wraps to the same value as adding first. -/
lemma wrap32_add_left (x k : ℤ) : wrap32 (wrap32 x + k) = wrap32 (x + k) := by
  unfold wrap32
  omega

/-- Wrap-around is the identity on the `i32` range. -/
lemma wrap32_of_range (x : ℤ) (h0 : -2147483648 ≤ x) (h1 : x < 2147483648) :
    wrap32 x = x := by
  unfold wrap32
  omega

/-- `countGain` distributes over list concatenation. -/
lemma countGain_append (p : Player) (l1 l2 : List GameEvents) :
    countGain p (l1 ++ l2) = countGain p l1 + countGain p l2 := by
  induction l1 with
  | nil => simp [countGain]
  | cons e rest ih =>
    cases e with
    | ResetBall q => simpa [countGain] using ih
    | GainPoint q => simp [countGain, ih]; omega

/-- A run of `n` goal events for `p` counts as `n`. -/
lemma countGain_replicate_self (n : ℕ) (p : Player) :
    countGain p (List.replicate n (.GainPoint p)) = n := by
  induction n with
  | zero => simp [countGain]
  | succ k ih => simp [List.replicate, countGain, ih, Nat.add_comm]

/-- The score of player `p` after the `score` system drains an event queue:
it is the wrap of the old value plus the number of `GainPoint p` events,
provided the old value is already wrap-normalised (as every stored `i32`
is). -/
lemma score_snd_entry (events : List GameEvents) (texts : List ScoreText)
    (m : Score) (p : Player) (h : wrap32 ((m p).getD 0) = (m p).getD 0) :
    ((score events texts m).2 p).getD 0
      = wrap32 ((m p).getD 0 + countGain p events) := by
  induction events generalizing texts m with
  | nil => simpa [score, countGain] using h.symm
  | cons e rest ih =>
    cases e with
    | ResetBall q =>
      have hstep : (score (.ResetBall q :: rest) texts m).2 = (score rest texts m).2 := rfl
      rw [hstep, ih texts m h]
      simp [countGain]
    | GainPoint q =>
      have hstep : (score (.GainPoint q :: rest) texts m).2
          = (score rest (score_event (.GainPoint q) texts m).1
              (score_event (.GainPoint q) texts m).2).2 := rfl
      by_cases hq : q = p
      · subst hq
        have hsnd : (score_event (.GainPoint q) texts m).2 q
            = some (wrap32 ((m q).getD 0 + 1)) := by
          show (if q = q then some (wrap32 ((m q).getD 0 + 1)) else m q)
            = some (wrap32 ((m q).getD 0 + 1))
          simp
        have hval : ((score_event (.GainPoint q) texts m).2 q).getD 0
            = wrap32 ((m q).getD 0 + 1) := by rw [hsnd]; rfl
        have hnorm : wrap32 (((score_event (.GainPoint q) texts m).2 q).getD 0)
            = ((score_event (.GainPoint q) texts m).2 q).getD 0 := by
          rw [hval]
          exact wrap32_idem _
        rw [hstep, ih _ _ hnorm, hval, wrap32_add_left]
        have hc : countGain q (.GainPoint q :: rest) = 1 + countGain q rest := by
          simp [countGain]
        rw [hc]
        push_cast
        congr 1
        ring
      · have hpq : p ≠ q := fun h2 => hq h2.symm
        have hval : (score_event (.GainPoint q) texts m).2 p = m p := by
          show (if p = q then some (wrap32 ((m q).getD 0 + 1)) else m p) = m p
          exact if_neg hpq
        have hnorm : wrap32 (((score_event (.GainPoint q) texts m).2 p).getD 0)
            = ((score_event (.GainPoint q) texts m).2 p).getD 0 := by
          rw [hval]
          exact h
        rw [hstep, ih _ _ hnorm, hval]
        have hc : countGain p (.GainPoint q :: rest) = countGain p rest := by
          simp [countGain, hq]
        rw [hc]

/-- Updating the score text leaves a list without a matching owner
unchanged. -/
lemma updateText_no_match (p : Player) (s : ℤ) :
    ∀ texts : List ScoreText, (∀ t ∈ texts, t.owner ≠ p) →
      updateText p s texts = texts := by
  intro texts h
  induction texts with
  | nil => rfl
  | cons t rest ih =>
    have ht : t.owner ≠ p := h t (List.mem_cons_self t rest)
    simp only [updateText, if_neg ht]
    rw [ih fun u hu => h u (List.mem_cons_of_mem t hu)]

/-- Updating the score text rewrites exactly the first entity owned by `p`
and keeps everything else. -/
lemma updateText_first_match (p : Player) (s : ℤ) :
    ∀ (pre : List ScoreText) (t : ScoreText) (post : List ScoreText),
      (∀ u ∈ pre, u.owner ≠ p) → t.owner = p →
      updateText p s (pre ++ t :: post)
        = pre ++ { t with value := toString s } :: post := by
  intro pre
  induction pre with
  | nil =>
    intro t post _ ht
    simp [updateText, ht]
  | cons u us ih =>
    intro t post hpre ht
    have hu : u.owner ≠ p := hpre u (List.mem_cons_self u us)
    simp only [List.cons_append, updateText, if_neg hu]
    exact congrArg (fun l => u :: l)
      (ih t post (fun v hv => hpre v (List.mem_cons_of_mem u hv)) ht)

/-- The text component of a point-gain step: the first text section of the
first entity owned by the scorer receives the wrap-incremented count. -/
lemma score_event_gain_fst (p : Player) (texts : List ScoreText) (m : Score) :
    (score_event (.GainPoint p) texts m).1
      = updateText p (wrap32 ((m p).getD 0 + 1)) texts := by
  have h0 : (score_event (.GainPoint p) texts m).1
      = updateText p ((if p = p then some (wrap32 ((m p).getD 0 + 1)) else m p).getD 0) texts :=
    rfl
  rw [h0, if_pos rfl]
  rfl

/-- The map component of a point-gain step, pointwise. -/
lemma score_event_gain_snd (p q : Player) (texts : List ScoreText) (m : Score) :
    (score_event (.GainPoint p) texts m).2 q
      = if q = p then some (wrap32 ((m p).getD 0 + 1)) else m q := rfl

/-- Every goal-sensor hit in the overlap set produces an adjacent
`ResetBall`/`GainPoint` pair in the emitted events. -/
lemma goalEvents_surrounds (p : Player) :
    ∀ hits : List OverlapEntity, .goalOf p ∈ hits →
      ∃ pre post, goalEvents hits = pre ++ .ResetBall p :: .GainPoint p :: post := by
  intro hits hmem
  induction hits with
  | nil => cases hmem
  | cons h rest ih =>
    rcases List.mem_cons.mp hmem with heq | hmem2
    · exact ⟨[], goalEvents rest, by rw [← heq]; simp [goalEvents, goalOwner]⟩
    · obtain ⟨pre, post, hrest⟩ := ih hmem2
      cases h with
      | paddleOf q => exact ⟨pre, post, by simp [goalEvents, goalOwner, hrest]⟩
      | wall => exact ⟨pre, post, by simp [goalEvents, goalOwner, hrest]⟩
      | goalOf q =>
        exact ⟨.ResetBall q :: .GainPoint q :: pre, post,
          by simp [goalEvents, goalOwner, hrest]⟩

/-! ## Claims -/

/-- Claim C1: after `move_paddle`, a paddle's vertical position lies within
`[-(720/2)+75, (720/2)-75]` provided it did before; when the up key is held
the position increases by `100 * dt` before clamping, and when the down key
is held it decreases by the same amount before clamping. -/
theorem move_paddle_bounds (up down : Bool) (dt y : ℚ) (_hdt : 0 ≤ dt)
    (hy : -WINDOW_HIGHT / 2 + 75 ≤ y ∧ y ≤ WINDOW_HIGHT / 2 - 75) :
    (-WINDOW_HIGHT / 2 + 75 ≤ move_paddle up down dt y ∧
      move_paddle up down dt y ≤ WINDOW_HIGHT / 2 - 75) ∧
    (up = true → down = false →
      move_paddle up down dt y
        = clampQ (y + 100 * dt) (-WINDOW_HIGHT / 2 + 75) (WINDOW_HIGHT / 2 - 75)) ∧
    (down = true → up = false →
      move_paddle up down dt y
        = clampQ (y - 100 * dt) (-WINDOW_HIGHT / 2 + 75) (WINDOW_HIGHT / 2 - 75)) := by
  refine ⟨?_, ?_, ?_⟩
  · cases up <;> cases down <;> simp only [move_paddle, if_true, if_false, Bool.false_eq_true]
    · exact hy
    · exact clampQ_bounds _ _ _ paddle_lo_le_hi
    · exact clampQ_bounds _ _ _ paddle_lo_le_hi
    · exact clampQ_bounds _ _ _ paddle_lo_le_hi
  · intro hup hdown
    subst hup
    subst hdown
    rfl
  · intro hdown hup
    subst hup
    subst hdown
    rfl

/-- Witness for C1 at `up`, paddle at center, `dt = 1`. -/
theorem move_paddle_bounds_witness :
    (0 : ℚ) ≤ 1 ∧
    (-WINDOW_HIGHT / 2 + 75 ≤ (0 : ℚ) ∧ (0 : ℚ) ≤ WINDOW_HIGHT / 2 - 75) ∧
    (-WINDOW_HIGHT / 2 + 75 ≤ move_paddle true false 1 0 ∧
      move_paddle true false 1 0 ≤ WINDOW_HIGHT / 2 - 75) :=
  ⟨by norm_num,
   ⟨by norm_num [WINDOW_HIGHT], by norm_num [WINDOW_HIGHT]⟩,
   (move_paddle_bounds true false 1 0 (by norm_num)
     ⟨by norm_num [WINDOW_HIGHT], by norm_num [WINDOW_HIGHT]⟩).1⟩

/-- Claim C3: after the `reset_ball` step processes a reset event naming
`p`, the ball sits at the field center with velocity `(100, 0)` for Player1
and `(-100, 0)` for Player2. -/
theorem reset_ball_centers (events : List GameEvents) (b : BallState) (p : Player) :
    reset_ball (events ++ [.ResetBall p]) b
      = ⟨(0, 0, 0), p.start_speed⟩ ∧
    p.start_speed = (if p = .Player1 then ((100 : ℚ), (0 : ℚ)) else (-100, 0)) := by
  constructor
  · unfold reset_ball
    rw [List.foldl_append]
    rfl
  · cases p <;> simp [Player.start_speed]

/-- Claim C6: `ball_hit` tints the ball with the color of the owner of the
first paddle in the overlap set, ignoring later paddles, and leaves the tint
unchanged when no paddle is overlapped. -/
theorem ball_hit_first_paddle (hits : List OverlapEntity) (c : Color) :
    (hits.find? (fun e => (paddleOwner e).isSome) = none → ball_hit hits c = c) ∧
    (∀ e p, hits.find? (fun e => (paddleOwner e).isSome) = some e →
      paddleOwner e = some p → ball_hit hits c = p.get_color) := by
  induction hits with
  | nil =>
    exact ⟨fun _ => rfl, fun e p he _ => by simp [List.find?] at he⟩
  | cons h rest ih =>
    cases h with
    | paddleOf q =>
      refine ⟨fun hnone => ?_, fun e p he hp => ?_⟩
      · simp [List.find?, paddleOwner] at hnone
      · simp only [List.find?, paddleOwner, Option.isSome_some, List.find?_cons_of_pos] at he
        have he2 : OverlapEntity.paddleOf q = e := by
          simpa using he
        rw [← he2] at hp
        have hqp : q = p := by simpa [paddleOwner] using hp
        subst hqp
        rfl
    | goalOf q =>
      refine ⟨fun hnone => ?_, fun e p he hp => ?_⟩
      · have hrec : rest.find? (fun e => (paddleOwner e).isSome) = none := by
          simpa [List.find?, paddleOwner] using hnone
        show ball_hit rest c = c
        exact ih.1 hrec
      · have hrec : rest.find? (fun e => (paddleOwner e).isSome) = some e := by
          simpa [List.find?, paddleOwner] using he
        show ball_hit rest c = p.get_color
        exact ih.2 e p hrec hp
    | wall =>
      refine ⟨fun hnone => ?_, fun e p he hp => ?_⟩
      · have hrec : rest.find? (fun e => (paddleOwner e).isSome) = none := by
          simpa [List.find?, paddleOwner] using hnone
        show ball_hit rest c = c
        exact ih.1 hrec
      · have hrec : rest.find? (fun e => (paddleOwner e).isSome) = some e := by
          simpa [List.find?, paddleOwner] using he
        show ball_hit rest c = p.get_color
        exact ih.2 e p hrec hp

/-- Witness for C6: a wall then two paddles; the first paddle (Player1)
wins, the second is ignored. -/
theorem ball_hit_first_paddle_witness :
    ([OverlapEntity.wall, .paddleOf .Player1, .paddleOf .Player2].find?
        (fun e => (paddleOwner e).isSome) = some (.paddleOf .Player1)) ∧
    paddleOwner (.paddleOf .Player1) = some .Player1 ∧
    ball_hit [.wall, .paddleOf .Player1, .paddleOf .Player2] .white
      = Player.get_color .Player1 :=
  ⟨by decide, by decide,
   (ball_hit_first_paddle [.wall, .paddleOf .Player1, .paddleOf .Player2] .white).2
     (.paddleOf .Player1) .Player1 (by decide) (by decide)⟩

/-- Claim C7: when Space is newly pressed, `detect_reset` emits exactly one
reset event whose player is picked from the random boolean, both choices of
which occur, and no point-gain event. -/
theorem manual_reset_random (hits : List OverlapEntity) (r : Bool) :
    detect_reset true r hits = [.ResetBall (if r then .Player1 else .Player2)] ∧
    detect_reset true true hits = [.ResetBall .Player1] ∧
    detect_reset true false hits = [.ResetBall .Player2] ∧
    ∀ p, GameEvents.GainPoint p ∉ detect_reset true r hits := by
  refine ⟨rfl, rfl, rfl, fun p hmem => ?_⟩
  simp [detect_reset] at hmem

/-- Witness for C7: both outcomes of the random draw occur. -/
theorem manual_reset_random_witness :
    detect_reset true true [] = [.ResetBall .Player1] ∧
    detect_reset true false [] = [.ResetBall .Player2] :=
  ⟨(manual_reset_random [] true).2.1, (manual_reset_random [] false).2.2.1⟩

/-- Claim C9: a Space press preempts goal detection for the frame:
the output does not depend on the overlap set, contains no point-gain
event, and its only reset event is the manual random one. -/
theorem space_preempts_goals (hits : List OverlapEntity) (r : Bool) (p : Player) :
    detect_reset true r hits = detect_reset true r [] ∧
    GameEvents.GainPoint p ∉ detect_reset true r hits ∧
    (GameEvents.ResetBall p ∈ detect_reset true r hits →
      p = if r then .Player1 else .Player2) := by
  refine ⟨rfl, fun hmem => ?_, fun hmem => ?_⟩
  · simp [detect_reset] at hmem
  · simpa [detect_reset] using hmem

/-- Witness for C9: with a goal sensor in the overlap set and Space pressed,
no point-gain event is emitted and the reset event is the manual one. -/
theorem space_preempts_goals_witness :
    GameEvents.ResetBall .Player2 ∈ detect_reset true false [.goalOf .Player1] ∧
    GameEvents.GainPoint .Player2 ∉ detect_reset true false [.goalOf .Player1] ∧
    Player.Player2 = (if false then Player.Player1 else Player.Player2) :=
  ⟨by decide,
   (space_preempts_goals [.goalOf .Player1] false .Player2).2.1,
   (space_preempts_goals [.goalOf .Player1] false .Player2).2.2 (by decide)⟩

/-- Claim C10: a reset event leaves the score map and every score-text
entity unchanged. -/
theorem reset_event_keeps_score (p : Player) (texts : List ScoreText) (m : Score) :
    score_event (.ResetBall p) texts m = (texts, m) ∧
    score [.ResetBall p] texts m = (texts, m) :=
  ⟨rfl, rfl⟩

/-- Claim C2 (amended): a point-gain event for `p` increments the entry of
`p` by exactly 1 — provided the entry is a valid `i32` value below
`i32::MAX` — leaves the other entries unchanged, and rewrites the first
text entity owned by `p` to the decimal rendering of the new count; from
`{Player1: 0, Player2: 0}` a point gain for Player1 yields
`{Player1: 1, Player2: 0}` with displayed text `"1"`. -/
theorem gain_point_increments (m : Score) (texts : List ScoreText) (p : Player)
    (h1 : -2147483648 ≤ (m p).getD 0) (h2 : (m p).getD 0 < 2147483647) :
    (score_event (.GainPoint p) texts m).2 p = some ((m p).getD 0 + 1) ∧
    (∀ q, q ≠ p → (score_event (.GainPoint p) texts m).2 q = m q) ∧
    (∀ (pre : List ScoreText) (t : ScoreText) (post : List ScoreText),
      texts = pre ++ t :: post → t.owner = p → (∀ u ∈ pre, u.owner ≠ p) →
      (score_event (.GainPoint p) texts m).1
        = pre ++ { t with value := toString ((m p).getD 0 + 1) } :: post) ∧
    ((score [.GainPoint .Player1] [⟨"0", .Player1⟩, ⟨"0", .Player2⟩]
        (fun _ => some 0)).2 .Player1 = some 1 ∧
      (score [.GainPoint .Player1] [⟨"0", .Player1⟩, ⟨"0", .Player2⟩]
        (fun _ => some 0)).2 .Player2 = some 0 ∧
      (score [.GainPoint .Player1] [⟨"0", .Player1⟩, ⟨"0", .Player2⟩]
        (fun _ => some 0)).1 = [⟨"1", .Player1⟩, ⟨"0", .Player2⟩]) := by
  have hwrap : wrap32 ((m p).getD 0 + 1) = (m p).getD 0 + 1 :=
    wrap32_of_range _ (by omega) (by omega)
  refine ⟨?_, fun q hq => ?_, fun pre t post htexts ht hpre => ?_,
    by decide, by decide, by decide⟩
  · rw [score_event_gain_snd, if_pos rfl, hwrap]
  · rw [score_event_gain_snd, if_neg hq]
  · rw [score_event_gain_fst, htexts, updateText_first_match p _ pre t post hpre ht, hwrap]

/-- Witness for C2 at the empty score map and Player1. -/
theorem gain_point_increments_witness :
    -2147483648 ≤ (Score.empty .Player1).getD 0 ∧
    (Score.empty .Player1).getD 0 < 2147483647 ∧
    (score_event (.GainPoint .Player1) [] Score.empty).2 .Player1
      = some ((Score.empty .Player1).getD 0 + 1) :=
  ⟨by decide, by decide,
   (gain_point_increments Score.empty [] .Player1 (by decide) (by decide)).1⟩

/-- Counterexample to C2 as stated: at a score map holding `i32::MAX` for
Player1, the point-gain step wraps the entry to `i32::MIN` instead of
incrementing it by 1. -/
theorem gain_point_overflow_cex :
    (score_event (.GainPoint .Player1) [] (fun _ => some 2147483647)).2 .Player1
      = some (-2147483648) ∧
    (score_event (.GainPoint .Player1) [] (fun _ => some 2147483647)).2 .Player1
      ≠ some (2147483647 + 1) :=
  ⟨by decide, by decide⟩

/-- Claim C4: for the goal sensor and the paddle on the same side of the
field, the sensor is tagged with the opposite player of the paddle owner
(the scorer); whenever the ball overlaps that sensor and Space is not
pressed, `detect_reset` emits an adjacent pair of a reset event and a
point-gain event both naming that same player. -/
theorem goal_detection_opposite :
    ∀ s ∈ spawn_border_sensors, ∀ pd ∈ spawn_players_paddles,
      (0 < s.x ↔ 0 < pd.x) →
      s.tag = pd.owner.opposite ∧
      ∀ (hits : List OverlapEntity) (r : Bool), OverlapEntity.goalOf s.tag ∈ hits →
        ∃ pre post, detect_reset false r hits
          = pre ++ .ResetBall s.tag :: .GainPoint s.tag :: post := by
  intro s hs pd hpd hside
  refine ⟨?_, fun hits r hmem => ?_⟩
  · simp only [spawn_border_sensors, List.mem_cons, List.not_mem_nil, or_false] at hs
    simp only [spawn_players_paddles, List.mem_cons, List.not_mem_nil, or_false] at hpd
    rcases hs with rfl | rfl <;> rcases hpd with rfl | rfl
    · exfalso
      norm_num [WINDOW_WIDTH] at hside
    · rfl
    · rfl
    · exfalso
      norm_num [WINDOW_WIDTH] at hside
  · obtain ⟨pre, post, hgoal⟩ := goalEvents_surrounds s.tag hits hmem
    refine ⟨pre, post, ?_⟩
    simpa [detect_reset] using hgoal

/-- Witness for C4: the right-edge sensor and the right-side paddle. -/
theorem goal_detection_opposite_witness :
    (⟨WINDOW_WIDTH / 2, .Player1⟩ : GoalSensor) ∈ spawn_border_sensors ∧
    (⟨WINDOW_WIDTH / 2 - 20, .Player2⟩ : PaddleSpawn) ∈ spawn_players_paddles ∧
    ((0 : ℚ) < (⟨WINDOW_WIDTH / 2, Player.Player1⟩ : GoalSensor).x ↔
      (0 : ℚ) < (⟨WINDOW_WIDTH / 2 - 20, Player.Player2⟩ : PaddleSpawn).x) ∧
    (⟨WINDOW_WIDTH / 2, Player.Player1⟩ : GoalSensor).tag
      = (⟨WINDOW_WIDTH / 2 - 20, Player.Player2⟩ : PaddleSpawn).owner.opposite := by
  refine ⟨List.mem_cons_self _ _,
    List.mem_cons_of_mem _ (List.mem_cons_self _ _),
    by norm_num [WINDOW_WIDTH], ?_⟩
  exact (goal_detection_opposite _ (List.mem_cons_self _ _) _
    (List.mem_cons_of_mem _ (List.mem_cons_self _ _)) (by norm_num [WINDOW_WIDTH])).1

/-- Claim C5 (amended): starting from the empty score map, along any event
sequence in which a player gains fewer than `2^31` points, that player's
score is non-negative at every step and never decreases from one step to
the next. -/
theorem score_nonneg_monotone (events : List GameEvents) (p : Player)
    (h : countGain p events < 2147483648) (k : ℕ) :
    0 ≤ ((score (events.take k) [] Score.empty).2 p).getD 0 ∧
    ((score (events.take k) [] Score.empty).2 p).getD 0
      ≤ ((score (events.take (k + 1)) [] Score.empty).2 p).getD 0 := by
  have hnorm : wrap32 ((Score.empty p).getD 0) = (Score.empty p).getD 0 := by
    show wrap32 0 = 0
    decide
  have e1 := score_snd_entry (events.take k) [] Score.empty p hnorm
  have e2 := score_snd_entry (events.take (k + 1)) [] Score.empty p hnorm
  have hek : (Score.empty p).getD 0 = 0 := rfl
  rw [hek, zero_add] at e1 e2
  have hbk : countGain p (events.take k) ≤ countGain p events := by
    conv_rhs => rw [← List.take_append_drop k events]
    rw [countGain_append]
    omega
  have hbk1 : countGain p (events.take (k + 1)) ≤ countGain p events := by
    conv_rhs => rw [← List.take_append_drop (k + 1) events]
    rw [countGain_append]
    omega
  have hmono : countGain p (events.take k) ≤ countGain p (events.take (k + 1)) := by
    rw [List.take_succ, countGain_append]
    omega
  have w1 : wrap32 (countGain p (events.take k)) = countGain p (events.take k) := by
    apply wrap32_of_range <;> omega
  have w2 : wrap32 (countGain p (events.take (k + 1))) = countGain p (events.take (k + 1)) := by
    apply wrap32_of_range <;> omega
  rw [e1, e2, w1, w2]
  constructor
  · omega
  · omega

/-- Witness for C5 on a one-goal event sequence. -/
theorem score_nonneg_monotone_witness :
    countGain .Player1 [GameEvents.GainPoint .Player1] < 2147483648 ∧
    (0 ≤ ((score ([GameEvents.GainPoint .Player1].take 0) [] Score.empty).2 .Player1).getD 0 ∧
      ((score ([GameEvents.GainPoint .Player1].take 0) [] Score.empty).2 .Player1).getD 0
        ≤ ((score ([GameEvents.GainPoint .Player1].take (0 + 1)) [] Score.empty).2
            .Player1).getD 0) :=
  ⟨by decide, score_nonneg_monotone [.GainPoint .Player1] .Player1 (by decide) 0⟩

/-- Counterexample to C5 as stated: after `2^31` point-gain events for
Player1 from the empty map, the wrapped `i32` counter is negative. -/
theorem score_overflow_negative_cex :
    ((score (List.replicate 2147483648 (.GainPoint .Player1)) [] Score.empty).2
        .Player1).getD 0 < 0 := by
  have hnorm : wrap32 ((Score.empty .Player1).getD 0) = (Score.empty .Player1).getD 0 := by
    show wrap32 0 = 0
    decide
  have h := score_snd_entry (List.replicate 2147483648 (.GainPoint .Player1)) []
    Score.empty .Player1 hnorm
  rw [countGain_replicate_self] at h
  rw [h]
  decide

/-- Claim C8 (amended): when no score-text entity is owned by `p`, a
point-gain event for `p` changes no text and still performs the counter
update, setting the entry of `p` to the `i32` wrap of one more than its
previous value (an increment by exactly 1 below `i32::MAX`), all other
entries unchanged. -/
theorem score_gain_no_text (m : Score) (texts : List ScoreText) (p : Player)
    (h : ∀ t ∈ texts, t.owner ≠ p) :
    (score_event (.GainPoint p) texts m).1 = texts ∧
    (score_event (.GainPoint p) texts m).2 p = some (wrap32 ((m p).getD 0 + 1)) ∧
    (∀ q, q ≠ p → (score_event (.GainPoint p) texts m).2 q = m q) := by
  refine ⟨?_, ?_, fun q hq => ?_⟩
  · rw [score_event_gain_fst]
    exact updateText_no_match p _ texts h
  · rw [score_event_gain_snd, if_pos rfl]
  · rw [score_event_gain_snd, if_neg hq]

/-- Witness for C8: a point-gain for Player2 with only a Player1 text
entity present. -/
theorem score_gain_no_text_witness :
    (∀ t ∈ [ScoreText.mk "0" .Player1], t.owner ≠ Player.Player2) ∧
    (score_event (.GainPoint .Player2) [ScoreText.mk "0" .Player1] Score.empty).1
      = [ScoreText.mk "0" .Player1] :=
  ⟨by decide,
   (score_gain_no_text Score.empty [ScoreText.mk "0" .Player1] .Player2 (by decide)).1⟩

/-- Counterexample to C8 as stated: with no Player1 text entity and the
entry of Player1 at `i32::MAX`, the entry is wrapped, not incremented
by 1. -/
theorem score_gain_no_text_overflow_cex :
    (∀ t ∈ ([] : List ScoreText), t.owner ≠ Player.Player1) ∧
    (score_event (.GainPoint .Player1) [] (fun _ => some 2147483647)).1 = [] ∧
    (score_event (.GainPoint .Player1) [] (fun _ => some 2147483647)).2 .Player1
      ≠ some (2147483647 + 1) :=
  ⟨by simp, by decide, by decide⟩

end Pong
